import Mathlib

/-!
Verification of radio-curses against its specification.

Shallow embedding of the repository's core modules:

* `radio_curses/curses_utils/list1.py` — the virtualized list viewport
  (`List.refresh`, `List.scroll_*`), embedded as a pure state machine on
  `(cur, idx)` with the window height `rows` (from `win.getmaxyx()`) and
  the record count `len` (from `proto.records_len()`) as parameters.
  Python integers are unbounded and signed, so both fields are `Int` and
  every guard is transcribed literally from the source.
* `radio_curses/db.py` — the tree model (`Record`, `Favourites`,
  `from_xml`, `from_url`).  Python's `d['k']` (which raises `KeyError`)
  is embedded as an `Except`-valued lookup; `x == y` on records compares
  object identity, embedded through a numeric id for the parent pointer.
* `radio_curses/utils.py` — the mpv IPC client (`Mpv.send_command`,
  `socket2json`), embedded as a fuel-indexed loop over an environment
  that records, per retry iteration, whether the socket file exists /
  the connect succeeds, and whether the cancellation event fires during
  the 2-second `stop.wait(2)` of that iteration.
* `radio_curses/__main__.py` — row text (`Main.get_record_str`) and one
  cycle of the metadata poller (`Main.poll_metadata` loop body).
-/

/-! ## Viewport engine (curses_utils/list1.py, class List) -/

/-- Viewport state: `self.cur` (cursor row inside the window) and
`self.idx` (absolute index into the record list).  The anchor of the
spec is `idx - cur`. -/
structure ListState where
  cur : Int
  idx : Int
  deriving DecidableEq, Repr

/-- `List.refresh` (list1.py lines 40-62), state part.  Inside
`if len_:` the source clamps `idx` into range if records were deleted,
closes a gap at the bottom of the window, and clamps `cur` to `idx`. -/
def refreshState (rows len : Int) (s : ListState) : ListState :=
  if len ≠ 0 then
    let idx := if ¬ s.idx < len then len - 1 else s.idx
    let cur := if rows - s.cur > len - idx then rows - (len - idx) else s.cur
    let cur := min cur idx
    ⟨cur, idx⟩
  else
    s

/-- The row-painting loop of `List.refresh`: paint window row `i` with
record `idx - cur + i`, stopping (`break`) at the first out-of-range
index; the entry records `(window row, record index, highlighted)`. -/
def paintAux (len base cur : Int) : Nat → Nat → List (Nat × Int × Bool)
  | 0, _ => []
  | n + 1, i =>
    if base + i < len then
      (i, base + i, decide ((i : Int) = cur)) :: paintAux len base cur n (i + 1)
    else
      []

/-- The full visible mapping painted by one `List.refresh` call on the
(already updated) state: empty when the record count is zero. -/
def refreshPaint (rows len : Int) (s : ListState) : List (Nat × Int × Bool) :=
  if len ≠ 0 then paintAux len (s.idx - s.cur) s.cur rows.toNat 0 else []

/-- `List.scroll_top` (list1.py lines 64-66). -/
def scrollTop (rows len : Int) (_s : ListState) : ListState :=
  refreshState rows len ⟨0, 0⟩

/-- `List.scroll_bottom` (list1.py lines 68-75). -/
def scrollBottom (rows len : Int) (s : ListState) : ListState :=
  if len = 0 then s
  else refreshState rows len ⟨min (rows - 1) (len - 1), len - 1⟩

/-- `List.scroll_down` (list1.py lines 77-94): move the highlight one
record down, shifting the window (`deleteln`) when the cursor is on the
last row. -/
def scrollDown (rows len : Int) (s : ListState) : ListState :=
  if len = 0 ∨ ¬ s.idx + 1 < len then s
  else
    let cur := if s.cur + 1 < rows then s.cur + 1 else rows - 1
    ⟨cur, s.idx + 1⟩

/-- `List.scroll_up` (list1.py lines 96-111): move the highlight one
record up, shifting the window (`insdelln`) when the cursor is on row 0
(the cursor itself stays at 0 in that branch); the source never reads
the window height here. -/
def scrollUp (_rows len : Int) (s : ListState) : ListState :=
  if len = 0 ∨ s.idx - 1 < 0 then s
  else
    let cur := if s.cur > 0 then s.cur - 1 else s.cur
    ⟨cur, s.idx - 1⟩

/-- `List.scroll_page_down` (list1.py lines 113-132). -/
def scrollPageDown (rows len : Int) (s : ListState) : ListState :=
  if len = 0 then s
  else
    let idx := s.idx + rows
    if idx < len then refreshState rows len ⟨s.cur, idx⟩
    else
      let idx := len - 1
      let delta := idx - s.idx
      if delta = 0 then scrollBottom rows len s
      else if s.cur + delta < rows then refreshState rows len ⟨s.cur + delta, idx⟩
      else scrollBottom rows len s

/-- `List.scroll_page_up` (list1.py lines 134-144). -/
def scrollPageUp (rows len : Int) (s : ListState) : ListState :=
  if len = 0 then s
  else
    let idx := s.idx - rows
    if ¬ idx < 0 then refreshState rows len ⟨s.cur, idx⟩
    else scrollTop rows len s

/-- The viewport operations named by the spec's invariant. -/
inductive ViewOp where
  | refreshOp
  | top
  | bottom
  | down
  | up
  | pageDown
  | pageUp
  deriving DecidableEq, Repr

/-- Dispatch one viewport operation. -/
def applyOp (rows len : Int) : ViewOp → ListState → ListState
  | .refreshOp, s => refreshState rows len s
  | .top, s => scrollTop rows len s
  | .bottom, s => scrollBottom rows len s
  | .down, s => scrollDown rows len s
  | .up, s => scrollUp rows len s
  | .pageDown, s => scrollPageDown rows len s
  | .pageUp, s => scrollPageUp rows len s

/-- A single-step scroll as issued by the arrow keys. -/
inductive Step where
  | down
  | up
  deriving DecidableEq, Repr

/-- Apply a sequence of single-step scrolls left to right. -/
def applySteps (rows len : Int) (seq : List Step) (s : ListState) : ListState :=
  seq.foldl (fun t st =>
    match st with
    | .down => scrollDown rows len t
    | .up => scrollUp rows len t) s

/-- The effect of one step on the absolute index alone, with the exact
guards of `scroll_down` / `scroll_up`. -/
def idxStep (len : Int) (i : Int) : Step → Int
  | .down => if len = 0 ∨ ¬ i + 1 < len then i else i + 1
  | .up => if len = 0 ∨ i - 1 < 0 then i else i - 1

/-- Fold `idxStep` over a step sequence. -/
def idxFold (len : Int) (i : Int) (seq : List Step) : Int :=
  seq.foldl (idxStep len) i

/-- Net signed step count of a sequence: +1 per down, -1 per up. -/
def netSteps (seq : List Step) : Int :=
  seq.foldl (fun n st => match st with | .down => n + 1 | .up => n - 1) 0

/-- The viewport invariant of the spec, with anchor = `idx - cur`:
`0 ≤ cur < rows`, anchor `≥ 0` (i.e. `cur ≤ idx`) and `anchor + cur =
idx` a valid child index. -/
def ViewInv (rows len : Int) (s : ListState) : Prop :=
  0 ≤ s.cur ∧ s.cur < rows ∧ s.cur ≤ s.idx ∧ 0 ≤ s.idx ∧ s.idx < len

instance (rows len : Int) (s : ListState) : Decidable (ViewInv rows len s) := by
  unfold ViewInv; infer_instance

/-! ## Tree model (db.py) -/

/-- A record's observable data for the one-level operations: the
attribute map `self.d`, the truthiness of `self.children`, and the
identity of the object `self.parent` points to (`None` → `none`);
Python's `==` on records without `__eq__` is object identity, so the
parent check in `add_record` compares ids. -/
structure Rec where
  attrs : List (String × String)
  hasChildren : Bool
  parentId : Option Nat
  deriving DecidableEq, Repr

/-- Python `d[k]`: the value, or a raised `KeyError` (`Except.error`). -/
def dictGetitem (d : List (String × String)) (k : String) : Except Unit String :=
  match d.lookup k with
  | some v => .ok v
  | none => .error ()

/-- `Record.isdir` (db.py lines 24-31). -/
def Rec.isdir (r : Rec) : Bool :=
  if r.hasChildren then true
  else if (r.attrs.lookup "URL").isNone then true
  else if r.attrs.lookup "type" = some "link" then true
  else false

/-- `Record.isaudio` (db.py lines 33-38). -/
def Rec.isaudio (r : Rec) : Bool :=
  if r.isdir then false
  else if r.attrs.lookup "type" = some "audio" ∧ (r.attrs.lookup "URL").isSome then true
  else false

/-- `Record.move_child_up` (db.py lines 56-63): guarded
`del l[i]; l.insert(i - 1, r)`, returning whether the move happened
and the resulting child list. -/
def moveChildUp {α : Type} (l : List α) (i : Nat) : Bool × List α :=
  if h : 0 < i ∧ i < l.length then
    (true, (l.eraseIdx i).insertIdx (i - 1) (l.get ⟨i, h.2⟩))
  else
    (false, l)

/-- `Record.move_child_down` (db.py lines 65-72): guarded
`del l[i]; l.insert(i + 1, r)`. -/
def moveChildDown {α : Type} (l : List α) (i : Nat) : Bool × List α :=
  if h : i < l.length - 1 then
    (true, (l.eraseIdx i).insertIdx (i + 1) (l.get ⟨i, by omega⟩))
  else
    (false, l)

/-- The scan loop of `Favourites.add_record` (db.py lines 132-140):
walk the favourites children; on the first child whose `d['URL']`
equals `url`, replace it in place and report `False`; if none matches,
append and report `True`.  A child without a `URL` key raises
`KeyError` exactly as `r2.d['URL']` does. -/
def addRecordLoop (r : Rec) (url : String) : List Rec → Except Unit (Bool × List Rec)
  | [] => .ok (true, [r])
  | c :: cs =>
    match dictGetitem c.attrs "URL" with
    | .error e => .error e
    | .ok u =>
      if u = url then
        .ok (false, r :: cs)
      else
        match addRecordLoop r url cs with
        | .error e => .error e
        | .ok (b, l) => .ok (b, c :: l)

/-- `Favourites.add_record` (db.py lines 129-140).  `fid` is the
identity of the favourites node, `cs` its current children. -/
def addRecord (fid : Nat) (cs : List Rec) (r : Rec) : Except Unit (Bool × List Rec) :=
  if r.parentId = some fid ∨ r.isaudio = false then
    .ok (false, cs)
  else
    match dictGetitem r.attrs "URL" with
    | .error e => .error e
    | .ok url => addRecordLoop r url cs

/-! ## Row text (dunder-main module, class Main) -/

/-- `Main.get_record` (lines 130-134): `None` when the index is not
below the child count, the child otherwise.  The index comes from the
viewport (`self.win.idx`), which is never negative. -/
def getRecord (children : List Rec) (i : Nat) : Option Rec :=
  if h : i < children.length then some (children.get ⟨i, h⟩) else none

/-- `Main.get_record_str` (lines 136-141): empty string for a missing
record, `text` plus a trailing slash for a directory, bare `text` for
a leaf; `r.text` is `r.d['text']` and may raise `KeyError`. -/
def getRecordStr (children : List Rec) (i : Nat) : Except Unit String :=
  match getRecord children i with
  | none => .ok ""
  | some r => do
    let t ← dictGetitem r.attrs "text"
    if r.isdir then pure (t ++ "/") else pure t

/-- The URL lookup performed by `Main.start_player` (lines 202-212):
`none` when the record is not audio (no lookup at all), otherwise the
outcome of `r.d['URL']`. -/
def startPlayerUrl (r : Rec) : Option (Except Unit String) :=
  if r.isaudio then some (dictGetitem r.attrs "URL") else none

/-! ## Outline parsing and lazy population (db.py, from_xml / from_url) -/

/-- An already-parsed outline element: its attribute map and its child
outline elements. -/
inductive Outline where
  | node (attrs : List (String × String)) (children : List Outline)

/-- A tree record as built by population (attributes and children; the
parent pointer plays no role in these claims). -/
inductive XmlRec where
  | node (attrs : List (String × String)) (children : List XmlRec)

/-- `from_xml` (db.py lines 75-82): one child record per outline
element that carries a `text` attribute; recurse into an element only
when it lacks a `URL` attribute. -/
def fromXml : List Outline → List XmlRec
  | [] => []
  | .node d es :: rest =>
    if (d.lookup "text").isSome then
      let sub := if (d.lookup "URL").isNone then fromXml es else []
      .node d sub :: fromXml rest
    else
      fromXml rest

/-- The `http://` → `https://` rewrite at the top of `from_url`. -/
def upgradeScheme (url : String) : String :=
  if url.startsWith "http://" then
    String.mk (url.data.take 4) ++ "s" ++ String.mk (url.data.drop 4)
  else
    url

/-- `from_url` (db.py lines 85-95).  `fetch` is `requests.get` (its
`Except.error` is a raised network exception, which the source does not
catch); `parse` is `XML(resp.content)` followed by the
`/opml/body` selection, `none` meaning `XMLSyntaxError`.  On a parse
error the handler runs `r.children.clear()`, so the node ends with no
children; the fetched outlines are otherwise appended to the existing
children `cs`. -/
def fromUrl (fetch : String → Except Unit String)
    (parse : String → Option (List Outline))
    (url : String) (cs : List XmlRec) : Except Unit (List XmlRec) := do
  let content ← fetch (upgradeScheme url)
  match parse content with
  | none => pure []
  | some body => pure (cs ++ fromXml body)

/-! ## IPC client (utils.py, class Mpv and socket2json) -/

/-- A JSON object, abstracted to its top-level entries; `[]` is the
empty dict `\x7b\x7d` the error paths return. -/
def JsonDict : Type := List (String × String)

instance : DecidableEq JsonDict := by
  unfold JsonDict; infer_instance

/-- What one iteration of the connect-retry loop observes:
`os.path.exists(self.socket)` is false; or `client.connect` raises
`ConnectionError` / `socket.timeout`; or the connect succeeds. -/
inductive ConnectAttempt where
  | noSocket
  | refused
  | connected
  deriving DecidableEq

/-- What the `recv` loop of `socket2json` produces: the accumulated
bytes of a newline-terminated reply, a `ConnectionResetError`, or a
`socket.timeout` while reading. -/
inductive WireResult where
  | bytes (b : List Nat)
  | reset
  | timedOut
  deriving DecidableEq

/-- The exceptions that can escape `socket2json` in the source:
`socket.timeout` from `recv`, `UnicodeDecodeError` from `.decode`. -/
inductive PyExc where
  | timeoutExc
  | unicodeExc
  deriving DecidableEq

/-- One call's environment: per retry iteration `k`, the state of the
socket file / connect attempt, and whether `stop.wait(2)` at iteration
`k` reports the cancellation event set; plus the outcome of the single
write/read exchange performed once connected (`sendOk` is false when
`client.sendall` raises `socket.timeout`, `decode` is UTF-8 decoding,
`parseJson` is `json.loads`). -/
structure MpvEnv where
  attempt : Nat → ConnectAttempt
  stopWait : Nat → Bool
  sendOk : Bool
  wire : WireResult
  decode : List Nat → Option String
  parseJson : String → Option JsonDict

/-- `socket2json` (utils.py lines 78-89): catches
`ConnectionResetError` and `json.JSONDecodeError` (returning the empty
dict); a read timeout or a `UnicodeDecodeError` propagates. -/
def socket2json (env : MpvEnv) : Except PyExc JsonDict :=
  match env.wire with
  | .timedOut => .error .timeoutExc
  | .reset => .ok []
  | .bytes b =>
    match env.decode b with
    | none => .error .unicodeExc
    | some s =>
      match env.parseJson s with
      | none => .ok []
      | some d => .ok d

/-- The post-connect phase of `Mpv.send_command` (utils.py lines
67-72): `client.sendall(bytes_)` then `socket2json(client)`, with
`except (socket.timeout, UnicodeDecodeError): return \x7b\x7d`. -/
def exchangePhase (env : MpvEnv) : JsonDict :=
  if env.sendOk then
    match socket2json env with
    | .ok d => d
    | .error .timeoutExc => []
    | .error .unicodeExc => []
  else
    []

/-- How a `send_command` call returned: `cancelled` after `waits`
calls of `stop.wait(2)` (the last of which reported the event set), or
`exchanged` after connecting on iteration `waits` (having waited once
per earlier iteration). -/
inductive SendResult where
  | cancelled (waits : Nat)
  | exchanged (waits : Nat) (d : JsonDict)
  deriving DecidableEq

/-- The number of 2-second waits the call performed. -/
def SendResult.waits : SendResult → Nat
  | .cancelled w => w
  | .exchanged w _ => w

/-- The dict the call returned (`\x7b\x7d` on cancellation). -/
def SendResult.dict : SendResult → JsonDict
  | .cancelled _ => []
  | .exchanged _ d => d

/-- The `while True` connect-retry loop of `Mpv.send_command`
(utils.py lines 53-72), starting at iteration `k` and running at most
`fuel` more iterations (`none` = still looping): when the socket file
is missing or the connect is refused, wait `stop.wait(2)` — returning
the empty dict if the event fired — and retry; once connected, run the
exchange. -/
def sendCommandLoop (env : MpvEnv) : Nat → Nat → Option SendResult
  | 0, _ => none
  | fuel + 1, k =>
    match env.attempt k with
    | .connected => some (.exchanged k (exchangePhase env))
    | .noSocket =>
      if env.stopWait k then some (.cancelled (k + 1)) else sendCommandLoop env fuel (k + 1)
    | .refused =>
      if env.stopWait k then some (.cancelled (k + 1)) else sendCommandLoop env fuel (k + 1)

/-- `Mpv.send_command` (utils.py lines 53-72). -/
def sendCommand (env : MpvEnv) (fuel : Nat) : Option SendResult :=
  sendCommandLoop env fuel 0

/-- The fixed backoff of the retry loop: `stop.wait(2)` seconds. -/
def retryWaitSeconds : Nat := 2

/-! ## Status poller (dunder-main module, Main.poll_metadata) -/

/-- Python `str.rstrip()`: drop trailing whitespace. -/
def rstrip (s : String) : String :=
  String.mk ((s.data.reverse.dropWhile Char.isWhitespace).reverse)

/-- What one poll cycle sees after `d = self.mpv.get_metadata(stop)`:
whether `d.get('data')` is truthy, and the `icy-title` entry of that
payload (`none` when the key is absent). -/
structure PollInput where
  hasData : Bool
  icyTitle : Option String
  deriving DecidableEq, Repr

/-- Poller state across cycles: `prev_song` and the shared
`refresh_meta` event as read and cleared by the poller. -/
structure PollState where
  prevSong : Option String
  refreshFlag : Bool
  deriving DecidableEq, Repr

/-- One body iteration of `Main.poll_metadata` (lines 181-200) after
the 5-second wait: returns the new state and the status line published
through `self.status` this cycle, if any.  Mirrors the source:
`if not d2: continue`; a truthy title is rstripped and published when
it changed or the refresh event is set; a falsy title publishes the
bare station name only under the `elif refresh.is_set()` guard. -/
def pollStep (radio : String) (inp : PollInput) (st : PollState) :
    PollState × Option String :=
  if inp.hasData = false then
    (st, none)
  else
    match inp.icyTitle with
    | some s =>
      if s ≠ "" then
        let song := rstrip s
        if st.prevSong ≠ some song ∨ st.refreshFlag then
          (⟨some song, false⟩, some (radio ++ ": " ++ song))
        else
          (st, none)
      else
        if st.refreshFlag then (⟨none, false⟩, some radio) else (st, none)
    | none =>
      if st.refreshFlag then (⟨none, false⟩, some radio) else (st, none)

/-! ## Theorems -/

/-- C10: `isaudio` guarantees a `URL` attribute, so the `r.d['URL']`
lookups in `Favourites.add_record` (on a playable record) and in
`Main.start_player` cannot raise `KeyError`: both evaluate to the
stored URL, and `add_record` proceeds into its scan loop with it. -/
theorem isaudio_implies_url (r : Rec) (h : r.isaudio = true) :
    (r.attrs.lookup "URL").isSome = true ∧
    ∃ u, dictGetitem r.attrs "URL" = .ok u ∧
      startPlayerUrl r = some (.ok u) ∧
      ∀ fid cs, ¬ r.parentId = some fid →
        addRecord fid cs r = addRecordLoop r u cs := by
  have hsome : (r.attrs.lookup "URL").isSome = true := by
    unfold Rec.isaudio at h
    split at h
    · exact absurd h (by simp)
    · split at h
      · exact (by assumption : _ ∧ _).2
      · exact absurd h (by simp)
  obtain ⟨u, hu⟩ := Option.isSome_iff_exists.mp hsome
  refine ⟨hsome, u, ?_, ?_, ?_⟩
  · unfold dictGetitem
    rw [hu]
  · unfold startPlayerUrl dictGetitem
    rw [if_pos h, hu]
  · intro fid cs hp
    unfold addRecord
    rw [if_neg (by simp [hp, h])]
    unfold dictGetitem
    rw [hu]

/-- C10 witness: a concrete playable record. -/
theorem isaudio_implies_url_witness :
    ((⟨[("text", "X"), ("URL", "u"), ("type", "audio")], false, none⟩ : Rec).attrs.lookup
        "URL").isSome = true ∧
    ∃ v, dictGetitem (⟨[("text", "X"), ("URL", "u"), ("type", "audio")], false, none⟩ : Rec).attrs
          "URL" = .ok v ∧
      startPlayerUrl ⟨[("text", "X"), ("URL", "u"), ("type", "audio")], false, none⟩ =
        some (.ok v) ∧
      ∀ fid cs,
        ¬ (⟨[("text", "X"), ("URL", "u"), ("type", "audio")], false, none⟩ : Rec).parentId =
            some fid →
        addRecord fid cs ⟨[("text", "X"), ("URL", "u"), ("type", "audio")], false, none⟩ =
          addRecordLoop ⟨[("text", "X"), ("URL", "u"), ("type", "audio")], false, none⟩ v cs :=
  isaudio_implies_url ⟨[("text", "X"), ("URL", "u"), ("type", "audio")], false, none⟩ (by decide)

/-- C9: the row text of an in-range child is its `text` attribute with
a trailing slash exactly when the child is a directory; every index at
or beyond the child count yields the empty string without error. -/
theorem get_record_str_spec :
    (∀ (children : List Rec) (i : Nat), children.length ≤ i →
      getRecordStr children i = .ok "") ∧
    (∀ (children : List Rec) (i : Nat) (h : i < children.length) (t : String),
      ((children.get ⟨i, h⟩).attrs.lookup "text") = some t →
      getRecordStr children i =
        .ok (if (children.get ⟨i, h⟩).isdir then t ++ "/" else t)) := by
  constructor
  · intro children i hi
    unfold getRecordStr getRecord
    rw [dif_neg (by omega)]
  · intro children i h t ht
    unfold getRecordStr getRecord
    rw [dif_pos h]
    show (do
      let t ← dictGetitem (children.get ⟨i, h⟩).attrs "text"
      if (children.get ⟨i, h⟩).isdir then pure (t ++ "/") else pure t) = _
    unfold dictGetitem
    rw [ht]
    cases hd : (children.get ⟨i, h⟩).isdir <;> rfl

/-- C9 witness: a two-child list — child 0 a directory (no `URL`),
child 1 a playable leaf — and the out-of-range index 2. -/
theorem get_record_str_witness :
    getRecordStr [⟨[("text", "A")], false, none⟩,
        ⟨[("text", "B"), ("URL", "u"), ("type", "audio")], false, none⟩] 2 = .ok "" ∧
    getRecordStr [⟨[("text", "A")], false, none⟩,
        ⟨[("text", "B"), ("URL", "u"), ("type", "audio")], false, none⟩] 0 = .ok "A/" ∧
    getRecordStr [⟨[("text", "A")], false, none⟩,
        ⟨[("text", "B"), ("URL", "u"), ("type", "audio")], false, none⟩] 1 = .ok "B" := by
  refine ⟨get_record_str_spec.1 _ 2 (by decide), ?_, ?_⟩
  · have := get_record_str_spec.2
      [⟨[("text", "A")], false, none⟩,
        ⟨[("text", "B"), ("URL", "u"), ("type", "audio")], false, none⟩] 0 (by decide) "A"
      (by decide)
    simpa using this
  · have := get_record_str_spec.2
      [⟨[("text", "A")], false, none⟩,
        ⟨[("text", "B"), ("URL", "u"), ("type", "audio")], false, none⟩] 1 (by decide) "B"
      (by decide)
    simpa using this

/-- `del l[i]; l.insert(i - 1, l[i])` swaps an interior child with its
previous sibling and touches nothing else. -/
theorem eraseInsertUp {α : Type} (l₁ l₂ : List α) (a b : α)
    (h : l₁.length + 1 < (l₁ ++ a :: b :: l₂).length) :
    ((l₁ ++ a :: b :: l₂).eraseIdx (l₁.length + 1)).insertIdx l₁.length
      ((l₁ ++ a :: b :: l₂).get ⟨l₁.length + 1, h⟩) = l₁ ++ b :: a :: l₂ := by
  induction l₁ with
  | nil => simp [List.eraseIdx, List.insertIdx]
  | cons x xs ih =>
    simp only [List.cons_append, List.length_cons, List.eraseIdx_cons_succ,
      List.insertIdx_succ_cons, List.get_cons_succ]
    exact congrArg (x :: ·) (ih (by simp))

/-- `del l[i]; l.insert(i + 1, l[i])` swaps an interior child with its
next sibling and touches nothing else. -/
theorem eraseInsertDown {α : Type} (l₁ l₂ : List α) (a b : α)
    (h : l₁.length < (l₁ ++ a :: b :: l₂).length) :
    ((l₁ ++ a :: b :: l₂).eraseIdx l₁.length).insertIdx (l₁.length + 1)
      ((l₁ ++ a :: b :: l₂).get ⟨l₁.length, h⟩) = l₁ ++ b :: a :: l₂ := by
  induction l₁ with
  | nil => simp [List.eraseIdx, List.insertIdx]
  | cons x xs ih =>
    simp only [List.cons_append, List.length_cons, List.eraseIdx_cons_succ,
      List.insertIdx_succ_cons, List.get_cons_succ]
    exact congrArg (x :: ·) (ih (by simp))

/-- C8: `move_child_up` at index 0 or out of range, and
`move_child_down` at the last index or out of range, return `False`
and leave the children unchanged; at an interior index the two named
children swap while every other child keeps its position (any interior
index is `l₁.length + 1` resp. `l₁.length` for exactly one split
`l₁ ++ a :: b :: l₂` of the child list). -/
theorem move_child_spec :
    (∀ (l : List Rec) (i : Nat), i = 0 ∨ l.length ≤ i → moveChildUp l i = (false, l)) ∧
    (∀ (l : List Rec) (i : Nat), l.length ≤ i + 1 → moveChildDown l i = (false, l)) ∧
    (∀ (l₁ l₂ : List Rec) (a b : Rec),
      moveChildUp (l₁ ++ a :: b :: l₂) (l₁.length + 1) = (true, l₁ ++ b :: a :: l₂)) ∧
    (∀ (l₁ l₂ : List Rec) (a b : Rec),
      moveChildDown (l₁ ++ a :: b :: l₂) l₁.length = (true, l₁ ++ b :: a :: l₂)) := by
  refine ⟨?_, ?_, ?_, ?_⟩
  · intro l i hi
    unfold moveChildUp
    rw [dif_neg (by omega)]
  · intro l i hi
    unfold moveChildDown
    rw [dif_neg (by omega)]
  · intro l₁ l₂ a b
    unfold moveChildUp
    rw [dif_pos (by constructor <;> simp)]
    rw [Prod.mk.injEq]
    exact ⟨rfl, by simpa using eraseInsertUp l₁ l₂ a b (by simp)⟩
  · intro l₁ l₂ a b
    unfold moveChildDown
    rw [dif_pos (by simp)]
    rw [Prod.mk.injEq]
    exact ⟨rfl, by simpa using eraseInsertDown l₁ l₂ a b (by simp)⟩

/-- C8 witness: concrete three-record favourites list — boundary
moves fail and keep order; interior moves swap adjacent records. -/
theorem move_child_witness :
    moveChildUp
        [(⟨[("text", "A")], false, none⟩ : Rec), ⟨[("text", "B")], false, none⟩,
          ⟨[("text", "C")], false, none⟩] 0 =
      (false, [⟨[("text", "A")], false, none⟩, ⟨[("text", "B")], false, none⟩,
        ⟨[("text", "C")], false, none⟩]) ∧
    moveChildDown
        [(⟨[("text", "A")], false, none⟩ : Rec), ⟨[("text", "B")], false, none⟩,
          ⟨[("text", "C")], false, none⟩] 2 =
      (false, [⟨[("text", "A")], false, none⟩, ⟨[("text", "B")], false, none⟩,
        ⟨[("text", "C")], false, none⟩]) ∧
    moveChildUp
        [(⟨[("text", "A")], false, none⟩ : Rec), ⟨[("text", "B")], false, none⟩,
          ⟨[("text", "C")], false, none⟩] 1 =
      (true, [⟨[("text", "B")], false, none⟩, ⟨[("text", "A")], false, none⟩,
        ⟨[("text", "C")], false, none⟩]) ∧
    moveChildDown
        [(⟨[("text", "A")], false, none⟩ : Rec), ⟨[("text", "B")], false, none⟩,
          ⟨[("text", "C")], false, none⟩] 1 =
      (true, [⟨[("text", "A")], false, none⟩, ⟨[("text", "C")], false, none⟩,
        ⟨[("text", "B")], false, none⟩]) := by
  refine ⟨move_child_spec.1 _ 0 (Or.inl rfl), move_child_spec.2.1 _ 2 (by decide), ?_, ?_⟩
  · exact move_child_spec.2.2.1 [] [⟨[("text", "C")], false, none⟩]
      ⟨[("text", "A")], false, none⟩ ⟨[("text", "B")], false, none⟩
  · exact move_child_spec.2.2.2 [⟨[("text", "A")], false, none⟩] []
      ⟨[("text", "B")], false, none⟩ ⟨[("text", "C")], false, none⟩

/-- The scan loop of `add_record`, characterised by the first index
whose `URL` matches (provided every favourites child carries a `URL`,
as every record the program adds does): replace in place and report
`False`, or append and report `True`. -/
theorem addRecordLoop_spec (r : Rec) (url : String) (cs : List Rec)
    (hall : ∀ c ∈ cs, (c.attrs.lookup "URL").isSome = true) :
    addRecordLoop r url cs =
      match cs.findIdx? (fun c => c.attrs.lookup "URL" == some url) with
      | some i => .ok (false, cs.set i r)
      | none => .ok (true, cs ++ [r]) := by
  induction cs with
  | nil => rfl
  | cons c cs ih =>
    have hc : (c.attrs.lookup "URL").isSome = true := hall c (by simp)
    obtain ⟨u, hu⟩ := Option.isSome_iff_exists.mp hc
    have ih2 := ih (fun x hx => hall x (by simp [hx]))
    have hdg : dictGetitem c.attrs "URL" = .ok u := by
      unfold dictGetitem
      rw [hu]
    have hsplit : (c :: cs).findIdx? (fun c => c.attrs.lookup "URL" == some url) =
        if (c.attrs.lookup "URL" == some url) then some 0
        else (cs.findIdx? (fun c => c.attrs.lookup "URL" == some url)).map (· + 1) := by
      rw [List.findIdx?_cons]
      rcases h : (c.attrs.lookup "URL" == some url) <;> simp [h]
    rw [hsplit, hu]
    unfold addRecordLoop
    rw [hdg]
    by_cases he : u = url
    · subst he
      simp
    · cases hf : cs.findIdx? (fun c => c.attrs.lookup "URL" == some url) <;>
        simp [he, ih2, hf]

/-- C2: `add_record` returns `False` and keeps the children unchanged
for a non-playable record or one whose parent is already the
favourites node; with a playable record from elsewhere, it replaces
the first child with a matching `URL` in place (same index, same
count) returning `False`, and otherwise appends at the end returning
`True`. -/
theorem add_record_spec (fid : Nat) (cs : List Rec) (r : Rec) :
    ((r.parentId = some fid ∨ r.isaudio = false) → addRecord fid cs r = .ok (false, cs)) ∧
    (∀ url i, r.isaudio = true → ¬ r.parentId = some fid →
      r.attrs.lookup "URL" = some url →
      (∀ c ∈ cs, (c.attrs.lookup "URL").isSome = true) →
      cs.findIdx? (fun c => c.attrs.lookup "URL" == some url) = some i →
      addRecord fid cs r = .ok (false, cs.set i r) ∧ (cs.set i r).length = cs.length) ∧
    (∀ url, r.isaudio = true → ¬ r.parentId = some fid →
      r.attrs.lookup "URL" = some url →
      (∀ c ∈ cs, (c.attrs.lookup "URL").isSome = true) →
      cs.findIdx? (fun c => c.attrs.lookup "URL" == some url) = none →
      addRecord fid cs r = .ok (true, cs ++ [r]) ∧
        (cs ++ [r]).length = cs.length + 1) := by
  refine ⟨?_, ?_, ?_⟩
  · intro h
    unfold addRecord
    rw [if_pos h]
  · intro url i ha hp hurl hall hfind
    have hdg : dictGetitem r.attrs "URL" = .ok url := by
      unfold dictGetitem
      rw [hurl]
    unfold addRecord
    rw [if_neg (by simp [hp, ha]), hdg]
    refine ⟨?_, by simp⟩
    show addRecordLoop r url cs = _
    rw [addRecordLoop_spec r url cs hall, hfind]
  · intro url ha hp hurl hall hfind
    have hdg : dictGetitem r.attrs "URL" = .ok url := by
      unfold dictGetitem
      rw [hurl]
    unfold addRecord
    rw [if_neg (by simp [hp, ha]), hdg]
    refine ⟨?_, by simp⟩
    show addRecordLoop r url cs = _
    rw [addRecordLoop_spec r url cs hall, hfind]

/-- C2 witness: against a one-entry favourites list, a non-playable
record is rejected unchanged; a playable record with the same `URL`
replaces in place with `False`; one with a fresh `URL` is appended
with `True`. -/
theorem add_record_witness :
    addRecord 7 [⟨[("text", "A"), ("URL", "u1"), ("type", "audio")], false, some 7⟩]
        ⟨[("text", "D")], false, none⟩ =
      .ok (false, [⟨[("text", "A"), ("URL", "u1"), ("type", "audio")], false, some 7⟩]) ∧
    addRecord 7 [⟨[("text", "A"), ("URL", "u1"), ("type", "audio")], false, some 7⟩]
        ⟨[("text", "B"), ("URL", "u1"), ("type", "audio")], false, some 3⟩ =
      .ok (false, [⟨[("text", "B"), ("URL", "u1"), ("type", "audio")], false, some 3⟩]) ∧
    addRecord 7 [⟨[("text", "A"), ("URL", "u1"), ("type", "audio")], false, some 7⟩]
        ⟨[("text", "B"), ("URL", "u2"), ("type", "audio")], false, some 3⟩ =
      .ok (true, [⟨[("text", "A"), ("URL", "u1"), ("type", "audio")], false, some 7⟩,
        ⟨[("text", "B"), ("URL", "u2"), ("type", "audio")], false, some 3⟩]) := by
  refine ⟨(add_record_spec 7 _ _).1 (Or.inr (by decide)), ?_, ?_⟩
  · exact ((add_record_spec 7 _ _).2.1 "u1" 0 (by decide) (by decide) (by decide)
      (by decide) (by decide)).1
  · exact ((add_record_spec 7 _ _).2.2 "u2" (by decide) (by decide) (by decide)
      (by decide) (by decide)).1

/-- C4 counterexample: a fetch that raises (network failure in
`requests.get`) propagates out of `from_url` — the populate boundary
does not swallow it, contradicting the claim that fetch failure
degrades to an empty directory. -/
theorem from_url_fetch_error_propagates :
    fromUrl (fun _ => .error ()) (fun _ => none) "u" [] = .error () := rfl

/-- C4 amended: when the document is fetched but fails to parse
(`XMLSyntaxError`), the target node ends with zero children and no
exception escapes; when the fetch itself raises, that exception
propagates to the caller of `from_url`. -/
theorem from_url_spec (fetch : String → Except Unit String)
    (parse : String → Option (List Outline)) (url : String) (cs : List XmlRec) :
    (∀ content, fetch (upgradeScheme url) = .ok content → parse content = none →
      fromUrl fetch parse url cs = .ok []) ∧
    (∀ e, fetch (upgradeScheme url) = .error e →
      fromUrl fetch parse url cs = .error e) := by
  constructor
  · intro content hf hp
    unfold fromUrl
    rw [hf]
    show (match parse content with
      | none => pure []
      | some body => pure (cs ++ fromXml body)) = _
    rw [hp]
    rfl
  · intro e hf
    unfold fromUrl
    rw [hf]
    rfl

/-- C4 witness: a fetch that yields an unparsable document leaves the
node with zero children and raises nothing. -/
theorem from_url_witness :
    fromUrl (fun _ => .ok "bad") (fun _ => none) "u"
      [XmlRec.node [("text", "old")] []] = .ok [] :=
  (from_url_spec (fun _ => .ok "bad") (fun _ => none) "u"
    [XmlRec.node [("text", "old")] []]).1 "bad" rfl rfl

/-- Every return of the retry loop started at iteration `k` waited at
least `k` times, at least `k + 1` times if iteration `k` could not
connect; a cancellation return carries the empty dict and an exchange
return carries exactly the exchange-phase result. -/
theorem sendCommandLoop_spec (env : MpvEnv) :
    ∀ (fuel k : Nat) (res : SendResult), sendCommandLoop env fuel k = some res →
      k ≤ res.waits ∧
      (¬ env.attempt k = .connected → k + 1 ≤ res.waits) ∧
      (∀ w, res = .cancelled w → res.dict = []) ∧
      (∀ w d, res = .exchanged w d → d = exchangePhase env) := by
  intro fuel
  induction fuel with
  | zero => intro k res h; cases h
  | succ n ih =>
    intro k res h
    unfold sendCommandLoop at h
    rcases ha : env.attempt k with _ | _ | _ <;> rw [ha] at h
    · by_cases hs : env.stopWait k
      · rw [if_pos hs] at h
        cases h
        refine ⟨by simp [SendResult.waits], fun _ => by simp [SendResult.waits], ?_, ?_⟩
        · intro w _
          rfl
        · intro w d hwd
          cases hwd
      · rw [if_neg hs] at h
        obtain ⟨h1, _, h3, h4⟩ := ih (k + 1) res h
        exact ⟨by omega, fun _ => h1, h3, h4⟩
    · by_cases hs : env.stopWait k
      · rw [if_pos hs] at h
        cases h
        refine ⟨by simp [SendResult.waits], fun _ => by simp [SendResult.waits], ?_, ?_⟩
        · intro w _
          rfl
        · intro w d hwd
          cases hwd
      · rw [if_neg hs] at h
        obtain ⟨h1, _, h3, h4⟩ := ih (k + 1) res h
        exact ⟨by omega, fun _ => h1, h3, h4⟩
    · cases h
      refine ⟨by simp [SendResult.waits], fun hc => absurd rfl hc, ?_, ?_⟩
      · intro w hw
        cases hw
      · intro w d hwd
        cases hwd
        rfl

/-- C1: whenever `send_command` returns and the socket file was
missing on the first loop iteration, at least one 2-second
`stop.wait(2)` happened first; a return caused by the cancellation
event firing during a wait yields the empty dict; and once connected,
a send/read timeout, a decode failure, a connection reset or a JSON
parse failure during the exchange all yield the empty dict instead of
an exception. -/
theorem send_command_spec (env : MpvEnv) (fuel : Nat) (res : SendResult)
    (h : sendCommand env fuel = some res) :
    (env.attempt 0 = .noSocket → 1 ≤ res.waits) ∧
    (∀ w, res = .cancelled w → res.dict = []) ∧
    (∀ w d, res = .exchanged w d → d = exchangePhase env) ∧
    (env.sendOk = false → exchangePhase env = []) ∧
    (env.wire = .timedOut → exchangePhase env = []) ∧
    (env.wire = .reset → exchangePhase env = []) ∧
    (∀ b, env.wire = .bytes b → env.decode b = none → exchangePhase env = []) ∧
    (∀ b s, env.wire = .bytes b → env.decode b = some s → env.parseJson s = none →
      exchangePhase env = []) := by
  obtain ⟨_, h2, h3, h4⟩ := sendCommandLoop_spec env fuel 0 res h
  refine ⟨fun h0 => h2 (by rw [h0]; intro hc; cases hc), h3, h4, ?_, ?_, ?_, ?_, ?_⟩
  · intro hsend
    unfold exchangePhase
    rw [hsend]
    rfl
  · intro hw
    unfold exchangePhase socket2json
    rw [hw]
    cases env.sendOk <;> rfl
  · intro hw
    unfold exchangePhase socket2json
    rw [hw]
    cases env.sendOk <;> rfl
  · intro b hw hd
    unfold exchangePhase socket2json
    cases env.sendOk <;> simp [hw, hd]
  · intro b s hw hd hp
    unfold exchangePhase socket2json
    cases env.sendOk <;> simp [hw, hd, hp]

/-- C1 witness: socket file missing on iteration 0, connected on
iteration 1, with a JSON decode failure in the exchange — one wait
happened and the empty dict came back. -/
theorem send_command_witness :
    sendCommand
        ⟨fun k => if k = 0 then .noSocket else .connected, fun _ => false, true,
          .bytes [1], fun _ => some "bad", fun _ => none⟩ 3 =
      some (.exchanged 1 []) ∧
    1 ≤ SendResult.waits (.exchanged 1 []) := by
  constructor
  · rfl
  · exact (send_command_spec
      ⟨fun k => if k = 0 then .noSocket else .connected, fun _ => false, true,
        .bytes [1], fun _ => some "bad", fun _ => none⟩ 3 (.exchanged 1 []) rfl).1 rfl

/-- C5 counterexample: previously announced title "s", metadata now
carries data but no `icy-title`, refresh flag clear — the poller
publishes nothing (and keeps the stale `prev_song`), instead of
publishing the bare station name as the claim states. -/
theorem poll_step_title_gone_silent :
    pollStep "R" ⟨true, none⟩ ⟨some "s", false⟩ = (⟨some "s", false⟩, none) := rfl

/-- C5 amended: when the response carries data but no (or an empty)
title, the poller publishes the bare station name, resets `prev_song`
and clears the refresh flag only if the force-refresh flag was set;
with the flag clear it publishes nothing and keeps its state; and in
every cycle a status line is published only when the force-refresh
flag is set or a truthy title differs from the previous one. -/
theorem poll_step_spec (radio : String) (inp : PollInput) (st : PollState) :
    (inp.hasData = true → (inp.icyTitle = none ∨ inp.icyTitle = some "") →
      (st.refreshFlag = true → pollStep radio inp st = (⟨none, false⟩, some radio)) ∧
      (st.refreshFlag = false → pollStep radio inp st = (st, none))) ∧
    (∀ line, (pollStep radio inp st).2 = some line →
      st.refreshFlag = true ∨
        ∃ s, inp.icyTitle = some s ∧ s ≠ "" ∧ st.prevSong ≠ some (rstrip s)) := by
  constructor
  · intro hdata htitle
    constructor
    · intro hflag
      rcases htitle with ht | ht <;> simp [pollStep, hdata, ht, hflag]
    · intro hflag
      rcases htitle with ht | ht <;> simp [pollStep, hdata, ht, hflag]
  · intro line hline
    by_cases hdata : inp.hasData = false
    · simp [pollStep, hdata] at hline
    · rcases ht : inp.icyTitle with _ | s
      · by_cases hflag : st.refreshFlag
        · exact Or.inl hflag
        · simp [pollStep, hdata, ht, hflag] at hline
      · by_cases hs : s = ""
        · by_cases hflag : st.refreshFlag
          · exact Or.inl hflag
          · simp [pollStep, hdata, ht, hs, hflag] at hline
        · by_cases hcond : st.prevSong ≠ some (rstrip s) ∨ st.refreshFlag = true
          · rcases hcond with hc | hc
            · exact Or.inr ⟨s, rfl, hs, hc⟩
            · exact Or.inl hc
          · push_neg at hcond
            simp [pollStep, hdata, ht, hs, hcond.1, hcond.2] at hline

/-- C5 witness: same vanished-title cycle but with the force-refresh
flag set — the bare station name is published and the flag cleared. -/
theorem poll_step_witness :
    pollStep "R" ⟨true, none⟩ ⟨some "s", true⟩ = (⟨none, false⟩, some "R") :=
  ((poll_step_spec "R" ⟨true, none⟩ ⟨some "s", true⟩).1 rfl (Or.inl rfl)).1 rfl

/-- C7: `refresh` is idempotent — a second `refresh` with no
intervening mutation leaves `(cur, idx)` unchanged, and therefore
paints the identical row-to-record mapping. -/
theorem refresh_idempotent (rows len : Int) (s : ListState) :
    refreshState rows len (refreshState rows len s) = refreshState rows len s ∧
    refreshPaint rows len (refreshState rows len (refreshState rows len s)) =
      refreshPaint rows len (refreshState rows len s) := by
  have key : refreshState rows len (refreshState rows len s) = refreshState rows len s := by
    by_cases h : len = 0
    · simp [refreshState, h]
    · simp only [refreshState, ne_eq, h, not_false_eq_true, if_true]
      split_ifs <;> simp_all [ListState.mk.injEq, min_def] <;> omega
  exact ⟨key, by rw [key]⟩

/-- `refresh` re-establishes the viewport invariant from any state
with a cursor inside the window and a non-negative index — this is
the clamping the source performs for indexes past the end and for a
gap at the bottom. -/
theorem refresh_establishes (rows len : Int) (s : ListState) (hr : 1 ≤ rows)
    (hl : 1 ≤ len) (h0 : 0 ≤ s.cur) (h1 : s.cur < rows) (h2 : 0 ≤ s.idx) :
    ViewInv rows len (refreshState rows len s) := by
  have hne : len ≠ 0 := by omega
  simp only [refreshState, ViewInv, ne_eq, hne, not_false_eq_true, if_true]
  split_ifs <;> simp [min_def] <;> split_ifs <;> omega

/-- `scroll_top` lands in an invariant state. -/
theorem scrollTop_inv (rows len : Int) (s : ListState) (hr : 1 ≤ rows) (hl : 1 ≤ len) :
    ViewInv rows len (scrollTop rows len s) :=
  refresh_establishes rows len ⟨0, 0⟩ hr hl (by simp) (by simp; omega) (by simp)

/-- `scroll_bottom` lands in an invariant state. -/
theorem scrollBottom_inv (rows len : Int) (s : ListState) (hr : 1 ≤ rows) (hl : 1 ≤ len) :
    ViewInv rows len (scrollBottom rows len s) := by
  unfold scrollBottom
  rw [if_neg (by omega)]
  exact refresh_establishes rows len ⟨min (rows - 1) (len - 1), len - 1⟩ hr hl
    (by simp [min_def]; split_ifs <;> omega)
    (by simp [min_def]; split_ifs <;> omega)
    (by simp; omega)

/-- C6: with a non-empty record list, every viewport operation —
refresh, jump to top/bottom, single steps, and page scrolls —
preserves `0 ≤ cur < rows`, anchor `= idx - cur ≥ 0`, and
`0 ≤ idx < len`; and with a record count of zero the refresh paints
no rows at all. -/
theorem viewport_invariant (rows len : Int) (op : ViewOp) (s : ListState)
    (hr : 1 ≤ rows) (hl : 1 ≤ len) (hs : ViewInv rows len s) :
    ViewInv rows len (applyOp rows len op s) ∧
    ∀ t : ListState, refreshPaint rows 0 t = [] := by
  obtain ⟨h0, h1, h2, h3, h4⟩ := hs
  have hne : len ≠ 0 := by omega
  refine ⟨?_, fun t => by simp [refreshPaint]⟩
  cases op with
  | refreshOp => exact refresh_establishes rows len s hr hl h0 h1 h3
  | top => exact scrollTop_inv rows len s hr hl
  | bottom => exact scrollBottom_inv rows len s hr hl
  | down =>
    show ViewInv rows len (scrollDown rows len s)
    unfold scrollDown
    split_ifs <;> simp_all [ViewInv] <;> omega
  | up =>
    show ViewInv rows len (scrollUp rows len s)
    unfold scrollUp
    split_ifs <;> simp_all [ViewInv] <;> omega
  | pageDown =>
    show ViewInv rows len (scrollPageDown rows len s)
    unfold scrollPageDown
    rw [if_neg hne]
    by_cases hb : s.idx + rows < len
    · rw [if_pos hb]
      exact refresh_establishes rows len ⟨s.cur, s.idx + rows⟩ hr hl h0 h1 (by simp; omega)
    · rw [if_neg hb]
      by_cases hd : len - 1 - s.idx = 0
      · rw [if_pos hd]
        exact scrollBottom_inv rows len s hr hl
      · rw [if_neg hd]
        by_cases hc : s.cur + (len - 1 - s.idx) < rows
        · rw [if_pos hc]
          exact refresh_establishes rows len ⟨s.cur + (len - 1 - s.idx), len - 1⟩ hr hl
            (by simp; omega) (by simpa using hc) (by simp; omega)
        · rw [if_neg hc]
          exact scrollBottom_inv rows len s hr hl
  | pageUp =>
    show ViewInv rows len (scrollPageUp rows len s)
    unfold scrollPageUp
    rw [if_neg hne]
    by_cases hb : s.idx - rows < 0
    · rw [if_neg (by simpa using hb)]
      exact scrollTop_inv rows len s hr hl
    · rw [if_pos (by simpa using hb)]
      exact refresh_establishes rows len ⟨s.cur, s.idx - rows⟩ hr hl h0 h1 (by simp; omega)

/-- C6 witness: a concrete step-down on a valid two-record viewport
keeps the invariant. -/
theorem viewport_invariant_witness :
    ViewInv 3 2 (applyOp 3 2 .down ⟨0, 0⟩) ∧
    ∀ t : ListState, refreshPaint 3 0 t = [] :=
  viewport_invariant 3 2 .down ⟨0, 0⟩ (by omega) (by omega) (by decide)

/-- Folding the step function from any accumulator shifts by the net
count. -/
theorem netSteps_shift (seq : List Step) : ∀ a : Int,
    seq.foldl (fun n st => match st with | .down => n + 1 | .up => n - 1) a =
      a + netSteps seq := by
  induction seq with
  | nil => intro a; simp [netSteps]
  | cons st rest ih =>
    intro a
    cases st <;> simp only [List.foldl_cons, netSteps] <;> simp only [ih] <;> omega

/-- Net count of a sequence beginning with a down step. -/
theorem netSteps_down (rest : List Step) :
    netSteps (Step.down :: rest) = 1 + netSteps rest :=
  netSteps_shift rest 1

/-- Net count of a sequence beginning with an up step. -/
theorem netSteps_up (rest : List Step) :
    netSteps (Step.up :: rest) = -1 + netSteps rest := by
  show List.foldl (fun n st => match st with | Step.down => n + 1 | Step.up => n - 1)
    (0 - 1) rest = -1 + netSteps rest
  rw [netSteps_shift rest (0 - 1)]
  omega

/-- When every prefix keeps the index inside `[0, len)`, no step
saturates, so the fold is plain addition of the net count. -/
theorem idxFold_in_range (len : Int) (seq : List Step) : ∀ i : Int,
    (∀ k, k ≤ seq.length →
      0 ≤ i + netSteps (seq.take k) ∧ i + netSteps (seq.take k) < len) →
    idxFold len i seq = i + netSteps seq := by
  induction seq with
  | nil => intro i _; simp [idxFold, netSteps]
  | cons st rest ih =>
    intro i h
    have h1 := h 1 (by simp)
    rw [List.take_succ_cons, List.take_zero] at h1
    cases st
    case down =>
      rw [netSteps_down, show netSteps ([] : List Step) = 0 from rfl] at h1
      have hstep : idxStep len i Step.down = i + 1 := by
        simp only [idxStep]
        rw [if_neg (by omega)]
      have hrec : idxFold len i (Step.down :: rest) =
          idxFold len (idxStep len i Step.down) rest := rfl
      rw [hrec, hstep, netSteps_down, ih (i + 1) ?_]
      · omega
      · intro k hk
        have h2 := h (k + 1) (by simpa using hk)
        rw [List.take_succ_cons, netSteps_down] at h2
        constructor <;> omega
    case up =>
      rw [netSteps_up, show netSteps ([] : List Step) = 0 from rfl] at h1
      have hstep : idxStep len i Step.up = i - 1 := by
        simp only [idxStep]
        rw [if_neg (by omega)]
      have hrec : idxFold len i (Step.up :: rest) =
          idxFold len (idxStep len i Step.up) rest := rfl
      rw [hrec, hstep, netSteps_up, ih (i - 1) ?_]
      · omega
      · intro k hk
        have h2 := h (k + 1) (by simpa using hk)
        rw [List.take_succ_cons, netSteps_up] at h2
        constructor <;> omega

/-- One scroll-down call moves the absolute index exactly as the
guarded single-step function does. -/
theorem scrollDown_idx (rows len : Int) (s : ListState) :
    (scrollDown rows len s).idx = idxStep len s.idx .down := by
  unfold scrollDown idxStep
  split_ifs <;> rfl

/-- One scroll-up call moves the absolute index exactly as the
guarded single-step function does. -/
theorem scrollUp_idx (rows len : Int) (s : ListState) :
    (scrollUp rows len s).idx = idxStep len s.idx .up := by
  unfold scrollUp idxStep
  split_ifs <;> rfl

/-- The absolute index after a step sequence is the fold of the
guarded single steps — the cursor/window bookkeeping never feeds back
into it. -/
theorem applySteps_idx (rows len : Int) (seq : List Step) :
    ∀ s : ListState, (applySteps rows len seq s).idx = idxFold len s.idx seq := by
  induction seq with
  | nil => intro s; rfl
  | cons st rest ih =>
    intro s
    cases st
    case down =>
      have hrec : applySteps rows len (Step.down :: rest) s =
          applySteps rows len rest (scrollDown rows len s) := rfl
      rw [hrec, ih, scrollDown_idx]
      rfl
    case up =>
      have hrec : applySteps rows len (Step.up :: rest) s =
          applySteps rows len rest (scrollUp rows len s) := rfl
      rw [hrec, ih, scrollUp_idx]
      rfl

/-- C3 counterexample: list length 3, start index 0, sequence
up-then-down (length 2 ≤ 3, net count 0).  The up step saturates at
the boundary, so the final index is 1 while the claimed clamped
formula gives 0. -/
theorem step_sequence_cex :
    (applySteps 2 3 [Step.up, Step.down] ⟨0, 0⟩).idx = 1 ∧
    max 0 (min ((0 : Int) + netSteps [Step.up, Step.down]) (3 - 1)) = 0 := by decide

/-- C3 amended: the index after a sequence of stepDown/stepUp calls is
the per-step saturating fold of ±1 moves; whenever every prefix keeps
start + prefix-net inside `[0, length-1]` — in particular when no step
hits a boundary — it equals the claimed closed form: start plus net
signed step count, clamped to `[0, length-1]`. -/
theorem step_sequence_spec (rows len : Int) (s : ListState) (seq : List Step) :
    (applySteps rows len seq s).idx = idxFold len s.idx seq ∧
    ((∀ k, k ≤ seq.length →
        0 ≤ s.idx + netSteps (seq.take k) ∧ s.idx + netSteps (seq.take k) < len) →
      (applySteps rows len seq s).idx = max 0 (min (s.idx + netSteps seq) (len - 1))) := by
  refine ⟨applySteps_idx rows len seq s, fun h => ?_⟩
  rw [applySteps_idx rows len seq s, idxFold_in_range len seq s.idx h]
  have hall := h seq.length (le_refl _)
  rw [List.take_length] at hall
  omega

/-- C3 witness: two down steps from index 0 over three records land on
index 2, matching the clamped net-count formula. -/
theorem step_sequence_witness :
    (applySteps 2 3 [Step.down, Step.down] ⟨0, 0⟩).idx =
      max 0 (min ((0 : Int) + netSteps [Step.down, Step.down]) (3 - 1)) :=
  (step_sequence_spec 2 3 ⟨0, 0⟩ [Step.down, Step.down]).2 (by decide)
